import Mathlib

/-!
Verification of the variant-generation and answer-matching core of the
NewAgentDemo repository (backend/routes/demo.js and the text variant
generation service), as a shallow embedding in Lean.

JavaScript numbers that arise here are exact small rationals; divisions
such as `matches / totalWords` are embedded with `mkRat`, which equals
the true quotient whenever the denominator is nonzero.  `Math.random()`
is modelled by an arbitrary stream of rational draws `rand : ℕ → ℚ`,
threaded by a counter `k` that advances once per call site, and the
array pick `arr[Math.floor(Math.random() * arr.length)]` is modelled as
an arbitrary in-range index (floor of the draw times the length, reduced
mod the length so that the function is total; on the contract
`0 ≤ rand k < 1` of Math.random the mod is the identity).
-/

/-- JavaScript `str.split(/\s+/)`: fields separated by maximal runs of
whitespace.  A leading or trailing run contributes an empty field, as in
JavaScript; the Boolean flag records whether the scanner is inside a
separator run. -/
def jsSplitWsAux : Bool → List Char → List Char → List String
  | _, [], acc => [String.mk acc.reverse]
  | inWs, c :: cs, acc =>
    if c.isWhitespace then
      if inWs then jsSplitWsAux true cs acc
      else String.mk acc.reverse :: jsSplitWsAux true cs []
    else jsSplitWsAux false cs (c :: acc)

/-- JavaScript `str.split(/\s+/)` on a string. -/
def jsSplitWs (s : String) : List String :=
  jsSplitWsAux false s.toList []

/-- Whether `sub` occurs as a contiguous sublist of `l` (JavaScript
`String.prototype.includes`, on character lists). -/
def isSubListOf (sub : List Char) : List Char → Bool
  | [] => sub.isPrefixOf []
  | c :: cs => sub.isPrefixOf (c :: cs) || isSubListOf sub cs

/-- JavaScript `s.includes(sub)`. -/
def jsIncludes (s sub : String) : Bool :=
  isSubListOf sub.toList s.toList

/-- The token set the similarity scorer works on: split on whitespace and
keep only the words of length greater than 2 (demo.js lines 513-514,
`str.split(/\s+/).filter(word => word.length > 2)`). -/
def simTokens (s : String) : List String :=
  (jsSplitWs s).filter (fun word => 2 < word.length)

/-- The word-overlap similarity score of demo.js `calculateSimilarity`
(lines 511-533): a word of `str1` counts as matched when some word of
`str2` contains it or is contained in it (the inner loop with `break`
marks each `word1` at most once), and the score is the number of matched
words divided by the larger token count. -/
def calculateSimilarity (str1 str2 : String) : ℚ :=
  let words1 := simTokens str1
  let words2 := simTokens str2
  if words1.length = 0 ∨ words2.length = 0 then 0
  else
    let totalWords := max words1.length words2.length
    let matchCount :=
      (words1.filter (fun word1 =>
        words2.any (fun word2 =>
          jsIncludes word1 word2 || jsIncludes word2 word1))).length
    mkRat matchCount totalWords

/-- A stored AnswerVariant row: `{id, answerId, variantText, variantHtml,
isApproved}`. -/
structure AnswerVariantRow where
  id : ℕ
  variant_text : String
  variant_html : String
  is_approved : Bool
deriving DecidableEq

/-- A stored Answer row with its AnswerVariant rows, as the matcher's query
loads it. -/
structure AnswerRow where
  id : ℕ
  answer_text : String
  answer_html : String
  status : String
  variants : List AnswerVariantRow
deriving DecidableEq

/-- A stored QuestionVariant row: `{id, questionId, variantText, isApproved}`. -/
structure QuestionVariantRow where
  id : ℕ
  variant_text : String
  is_approved : Bool
deriving DecidableEq

/-- A stored Question row with its (at most one) Answer and its
QuestionVariant rows. -/
structure QuestionRow where
  id : ℕ
  agent_id : ℕ
  question_text : String
  status : String
  answer : Option AnswerRow
  variants : List QuestionVariantRow
deriving DecidableEq

/-- The payload `findMatchingAnswer` resolves to:
`{question_id, answer_id, text, html, score}`, with `null` ids on the
fallbacks. -/
structure MatchResponse where
  question_id : Option ℕ
  answer_id : Option ℕ
  text : String
  html : String
  score : ℚ
deriving DecidableEq

/-- The running state of the matching loop: the best match and score so
far, plus the counter of `Math.random()` draws consumed. -/
structure MatchState where
  bestMatch : Option MatchResponse
  bestScore : ℚ
  k : ℕ

/-- JavaScript `str.toLowerCase()` (ASCII case folding). -/
def jsToLower (s : String) : String :=
  String.mk (s.toList.map Char.toLower)

/-- JavaScript `str.trim()`: strip whitespace from both ends. -/
def jsTrim (s : String) : String :=
  String.mk (((s.toList.dropWhile Char.isWhitespace).reverse.dropWhile
    Char.isWhitespace).reverse)

/-- JavaScript `arr[Math.floor(Math.random() * arr.length)]` on a nonempty
array: the draw `rand k` scaled by the length and floored; the reduction
mod the length makes the function total, and is the identity on the
contract `0 ≤ rand k < 1` of `Math.random`. -/
def jsPick {α : Type} (rand : ℕ → ℚ) (k : ℕ) (x : α) (xs : List α) : α :=
  (x :: xs).get ⟨(Rat.floor (rand k * (((x :: xs).length : ℕ) : ℚ))).toNat % (x :: xs).length,
    Nat.mod_lt _ (Nat.succ_pos xs.length)⟩

/-- JavaScript `arr[Math.floor(Math.random() * arr.length)]` on a list of
strings; the tables this is used on are nonempty literals, so the empty
case (JavaScript `undefined`) is unreachable. -/
def jsPickList (rand : ℕ → ℚ) (k : ℕ) : List String → String
  | [] => ""
  | x :: xs => jsPick rand k x xs

/-- The candidate pool the matcher loads (demo.js lines 406-427): all
Questions of the agent with status Final whose Answer has status Final
(the `where` on the Answer include makes it an inner join, so a Question
without a Final Answer is dropped), together with the approved
QuestionVariants and the Answer's approved AnswerVariants (left joins:
`required: false`). -/
def loadFinalQuestions (agentId : ℕ) (db : List QuestionRow) : List QuestionRow :=
  (db.filter (fun q => q.agent_id == agentId && q.status == "Final")).filterMap
    (fun q =>
      match q.answer with
      | none => none
      | some a =>
        if a.status == "Final" then
          some { q with
            answer := some { a with variants := a.variants.filter (fun v => v.is_approved) },
            variants := q.variants.filter (fun v => v.is_approved) }
        else none)

/-- The fixed no-information fallback payload (demo.js lines 486-492). -/
def noInfoResponse : MatchResponse where
  question_id := none
  answer_id := none
  text := "I'm sorry, I don't have information about that topic. Could you please rephrase your question or ask about something else?"
  html := "I'm sorry, I don't have information about that topic. Could you please rephrase your question or ask about something else?"
  score := 0

/-- The fixed fallback payload of the catch block (demo.js lines 495-501). -/
def technicalDifficultiesResponse : MatchResponse where
  question_id := none
  answer_id := none
  text := "I'm experiencing technical difficulties. Please try again later."
  html := "I'm experiencing technical difficulties. Please try again later."
  score := 0

/-- Scoring of the original question text (demo.js lines 437-447): when the
score strictly exceeds the best so far, the canonical answer text and html
become the best match. -/
def considerOriginal (lowerMessage : String) (q : QuestionRow) (a : AnswerRow)
    (st : MatchState) : MatchState :=
  let originalScore := calculateSimilarity lowerMessage (jsToLower q.question_text)
  if st.bestScore < originalScore then
    { bestMatch := some
        { question_id := some q.id, answer_id := some a.id,
          text := a.answer_text, html := a.answer_html, score := originalScore },
      bestScore := originalScore, k := st.k }
  else st

/-- Scoring of one question variant (demo.js lines 450-477): when the score
strictly exceeds the best so far, the answer is drawn from a random
approved AnswerVariant when any exists (consuming one `Math.random()`
draw), else from the canonical Answer. -/
def considerVariant (lowerMessage : String) (rand : ℕ → ℚ) (q : QuestionRow)
    (a : AnswerRow) (st : MatchState) (v : QuestionVariantRow) : MatchState :=
  let variantScore := calculateSimilarity lowerMessage (jsToLower v.variant_text)
  if st.bestScore < variantScore then
    match a.variants with
    | [] =>
      { bestMatch := some
          { question_id := some q.id, answer_id := some a.id,
            text := a.answer_text, html := a.answer_html, score := variantScore },
        bestScore := variantScore, k := st.k }
    | av :: avs =>
      let randomVariant := jsPick rand st.k av avs
      { bestMatch := some
          { question_id := some q.id, answer_id := some a.id,
            text := randomVariant.variant_text, html := randomVariant.variant_html,
            score := variantScore },
        bestScore := variantScore, k := st.k + 1 }
  else st

/-- One iteration of the outer loop of `findMatchingAnswer` (demo.js lines
433-478): skip a question without an answer (`if (!question.answer)
continue`), else score the original text and then each variant. -/
def processQuestion (lowerMessage : String) (rand : ℕ → ℚ) (st : MatchState)
    (q : QuestionRow) : MatchState :=
  match q.answer with
  | none => st
  | some a => q.variants.foldl (considerVariant lowerMessage rand q a)
      (considerOriginal lowerMessage q a st)

/-- The body of demo.js `findMatchingAnswer` (lines 401-492) on a loaded
database: lower-case and trim the message, load the Final candidates,
run the greedy loop from `bestMatch = null`, `bestScore = 0`, and return
the best match if it exists and its score exceeds 0.3, else the
no-information fallback. -/
def findMatchingAnswerCore (agentId : ℕ) (db : List QuestionRow)
    (userMessage : String) (rand : ℕ → ℚ) : MatchResponse :=
  let lowerMessage := jsTrim (jsToLower userMessage)
  let questions := loadFinalQuestions agentId db
  let final := questions.foldl (processQuestion lowerMessage rand)
    { bestMatch := none, bestScore := 0, k := 0 }
  match final.bestMatch with
  | some bestMatch => if mkRat 3 10 < final.bestScore then bestMatch else noInfoResponse
  | none => noInfoResponse

/-- demo.js `findMatchingAnswer` with its `try`/`catch`: the fallible load
of the candidate pool is an `Except` value, and any error is caught and
converted to the fixed technical-difficulties payload (lines 493-502). -/
def findMatchingAnswer (agentId : ℕ) (dbResult : Except String (List QuestionRow))
    (userMessage : String) (rand : ℕ → ℚ) : MatchResponse :=
  match dbResult with
  | .ok db => findMatchingAnswerCore agentId db userMessage rand
  | .error _ => technicalDifficultiesResponse

/-- A transient match candidate: an original question text or one approved
question-variant text, each resolving to the question's Final answer. -/
inductive MatchCandidate where
  | original (q : QuestionRow) (a : AnswerRow)
  | variant (q : QuestionRow) (a : AnswerRow) (v : QuestionVariantRow)

/-- The text a candidate is scored on. -/
def MatchCandidate.text : MatchCandidate → String
  | .original q _ => q.question_text
  | .variant _ _ v => v.variant_text

/-- The candidates a loaded question row contributes, in scoring order. -/
def candidatesOf (q : QuestionRow) : List MatchCandidate :=
  match q.answer with
  | none => []
  | some a => .original q a :: q.variants.map (MatchCandidate.variant q a)

/-- All candidates the matcher scores for an agent, in scoring order. -/
def matchCandidates (agentId : ℕ) (db : List QuestionRow) : List MatchCandidate :=
  (loadFinalQuestions agentId db).flatMap candidatesOf

/-- The score of one candidate against the lowered, trimmed message. -/
def candScore (lowerMessage : String) (c : MatchCandidate) : ℚ :=
  calculateSimilarity lowerMessage (jsToLower c.text)

/-- The best similarity score over all candidates (0 when there are none). -/
def bestSimilarity (agentId : ℕ) (db : List QuestionRow) (userMessage : String) : ℚ :=
  ((matchCandidates agentId db).map (candScore (jsTrim (jsToLower userMessage)))).foldl max 0

/-- What it means for a payload to be the resolution of a candidate: the
candidate's question and answer ids, and the answer text/html taken from
the canonical Answer — or, for a variant candidate with approved
AnswerVariants, from one of those variants. -/
def resolvesTo (c : MatchCandidate) (p : MatchResponse) : Prop :=
  match c with
  | .original q a =>
      p.question_id = some q.id ∧ p.answer_id = some a.id ∧
      p.text = a.answer_text ∧ p.html = a.answer_html
  | .variant q a _ =>
      p.question_id = some q.id ∧ p.answer_id = some a.id ∧
      ((a.variants = [] ∧ p.text = a.answer_text ∧ p.html = a.answer_html) ∨
       (∃ av ∈ a.variants, p.text = av.variant_text ∧ p.html = av.variant_html))

/-- The per-candidate step of the matching loop: the two consider functions
packaged over the candidate sum type. -/
def stepCandidate (lowerMessage : String) (rand : ℕ → ℚ) (st : MatchState) :
    MatchCandidate → MatchState
  | .original q a => considerOriginal lowerMessage q a st
  | .variant q a v => considerVariant lowerMessage rand q a st v

/-- Invariant of the matching loop: the state is still initial, or the
best match is the resolution of some already-seen candidate whose score
is the current best score. -/
def InvResolved (lm : String) (all : List MatchCandidate) (st : MatchState) : Prop :=
  (st.bestMatch = none ∧ st.bestScore = 0) ∨
  (∃ c ∈ all, ∃ p, st.bestMatch = some p ∧ resolvesTo c p ∧
    p.score = st.bestScore ∧ candScore lm c = st.bestScore)

/-- Example row: a Final question with a Final answer (scenario B of the
spec). -/
def exQuestion : QuestionRow where
  id := 1
  agent_id := 1
  question_text := "What is your return policy?"
  status := "Final"
  answer := some
    { id := 2, answer_text := "You can return items within 30 days."
      answer_html := "<p>You can return items within 30 days.</p>"
      status := "Final", variants := [] }
  variants := []

/-- Example row: a Draft question whose text matches an utterance
verbatim. -/
def exDraftQuestion : QuestionRow where
  id := 3
  agent_id := 1
  question_text := "password reset"
  status := "Draft"
  answer := some
    { id := 4, answer_text := "Use the reset portal."
      answer_html := "Use the reset portal."
      status := "Final", variants := [] }
  variants := []

/-- A word character in the sense of the JavaScript regex class `\w`:
ASCII letters, digits and the underscore. -/
def isWordChar (c : Char) : Bool :=
  c.isAlphanum || c == '_'

/-- Case-insensitive anchored match of `target` at the start of the input;
on success the remainder of the input is returned. -/
def matchTargetCI : List Char → List Char → Option (List Char)
  | [], rest => some rest
  | _ :: _, [] => none
  | t :: ts, c :: cs => if c.toLower == t.toLower then matchTargetCI ts cs else none

/-- Whether the first remaining character is a word character (the trailing
`\b` check of a word-bounded pattern). -/
def headIsWord : List Char → Bool
  | [] => false
  | c :: _ => isWordChar c

/-- Scanner for the global case-insensitive word-bounded replace
`str.replace(new RegExp("\\b" + target + "\\b", "gi"), repl)`.  The Boolean
records whether the previous character of the original string is a word
character (the leading `\b` check); after a replacement it is true because
every key of the tables ends in a word character.  The fuel is the length
of the input, enough because every step consumes at least one character. -/
def replaceWordCIAux (target repl : List Char) : ℕ → Bool → List Char → List Char
  | 0, _, s => s
  | _ + 1, _, [] => []
  | fuel + 1, prevW, c :: cs =>
    if prevW then c :: replaceWordCIAux target repl fuel (isWordChar c) cs
    else
      match matchTargetCI target (c :: cs) with
      | some rest =>
        if headIsWord rest then c :: replaceWordCIAux target repl fuel (isWordChar c) cs
        else repl ++ replaceWordCIAux target repl fuel true rest
      | none => c :: replaceWordCIAux target repl fuel (isWordChar c) cs

/-- Global case-insensitive word-bounded replacement (see
`replaceWordCIAux`); an empty target never occurs in the tables. -/
def replaceWordCI (s target repl : String) : String :=
  match target.toList with
  | [] => s
  | t :: ts => String.mk (replaceWordCIAux (t :: ts) repl.toList s.toList.length false s.toList)

/-- Scanner for the global case-insensitive unbounded replace
`str.replace(new RegExp(escaped, "gi"), repl)` (no `\b`): every
occurrence is replaced, and scanning continues after the match in the
original string. -/
def replaceSubCIAux (target repl : List Char) : ℕ → List Char → List Char
  | 0, s => s
  | _ + 1, [] => []
  | fuel + 1, c :: cs =>
    match matchTargetCI target (c :: cs) with
    | some rest => repl ++ replaceSubCIAux target repl fuel rest
    | none => c :: replaceSubCIAux target repl fuel cs

/-- Global case-insensitive substring replacement (see `replaceSubCIAux`). -/
def replaceSubCI (s target repl : String) : String :=
  match target.toList with
  | [] => s
  | t :: ts => String.mk (replaceSubCIAux (t :: ts) repl.toList s.toList.length s.toList)

/-- JavaScript `str.replace(search, repl)` with a string pattern: replace
the first occurrence only, case-sensitively; an empty pattern matches at
the start. -/
def replaceFirstSubAux (target repl : List Char) : List Char → List Char
  | [] => if target.isEmpty then repl else []
  | c :: cs =>
    if target.isPrefixOf (c :: cs) then repl ++ (c :: cs).drop target.length
    else c :: replaceFirstSubAux target repl cs

/-- JavaScript first-occurrence string replacement on strings. -/
def replaceFirstSub (s target repl : String) : String :=
  String.mk (replaceFirstSubAux target.toList repl.toList s.toList)

/-- JavaScript `str.replace(/^pat/i, repl)`: anchored case-insensitive
replacement of the prefix when it matches, else the string unchanged. -/
def replacePrefixCI (s pat repl : String) : String :=
  match matchTargetCI pat.toList s.toList with
  | some rest => String.mk (repl.toList ++ rest)
  | none => s

/-- Exact prefix test (JavaScript `str.startsWith(pre)`). -/
def jsStartsWith (s pre : String) : Bool :=
  pre.toList.isPrefixOf s.toList

/-- Whether one of the alternatives matches case-insensitively at the start
of the string (the test `text.match(/^(a|b|...)/i)`). -/
def startsAnyCI (s : String) (pats : List String) : Bool :=
  pats.any (fun p => (matchTargetCI p.toList s.toList).isSome)

/-- Scanner for JavaScript `str.split(sep)` with a non-empty string
separator: fields between exact occurrences of the separator, no
collapsing.  The accumulator holds the current field reversed. -/
def jsSplitOnAux (sep : List Char) : ℕ → List Char → List Char → List String
  | 0, acc, rest => [String.mk (acc.reverse ++ rest)]
  | _ + 1, acc, [] => [String.mk acc.reverse]
  | fuel + 1, acc, c :: cs =>
    if sep.isPrefixOf (c :: cs) then
      String.mk acc.reverse :: jsSplitOnAux sep fuel [] ((c :: cs).drop sep.length)
    else jsSplitOnAux sep fuel (c :: acc) cs

/-- JavaScript `str.split(sep)` for a non-empty string separator. -/
def jsSplitOn (s sep : String) : List String :=
  match sep.toList with
  | [] => [s]
  | t :: ts => jsSplitOnAux (t :: ts) s.toList.length [] s.toList

/-- JavaScript `arr.splice(n, 0, a)`: insert `a` at index `n` (at the end
when the array is shorter). -/
def listInsertAt {α : Type} (n : ℕ) (a : α) (l : List α) : List α :=
  l.take n ++ a :: l.drop n

/-- JavaScript `s.charAt(0).toUpperCase() + s.slice(1)`. -/
def jsCapitalize (s : String) : String :=
  match s.toList with
  | [] => s
  | c :: cs => String.mk (c.toUpper :: cs)

/-- Scanner for the tag-stripping replace `html.replace(/<[^>]*>/g, '')`:
the option accumulates (reversed) the characters since an unmatched `<`;
a `>` closes and discards the pending segment, and a pending segment with
no closing `>` is emitted verbatim at the end, as the regex leaves an
unclosed `<...` untouched. -/
def stripTagsAux : Option (List Char) → List Char → List Char
  | none, [] => []
  | some pend, [] => pend.reverse
  | none, c :: cs =>
    if c == '<' then stripTagsAux (some [c]) cs else c :: stripTagsAux none cs
  | some pend, c :: cs =>
    if c == '>' then stripTagsAux none cs else stripTagsAux (some (c :: pend)) cs

/-- The variant service's `stripHtml`: remove `<...>` tags and trim. -/
def stripHtml (html : String) : String :=
  jsTrim (String.mk (stripTagsAux none html.toList))

/-- JavaScript `a || b` on an optional string (null and the empty string
are falsy). -/
def jsOrStr (o : Option String) (b : String) : String :=
  match o with
  | none => b
  | some s => if s == "" then b else s

/-- JavaScript `variant.confidence || 0.8` (undefined and 0 are falsy). -/
def jsOrConf (o : Option ℚ) : ℚ :=
  match o with
  | none => mkRat 4 5
  | some c => if c = 0 then mkRat 4 5 else c

/-- The value a paraphrase rule returns: `{text, html, confidence}`, where
`html` may be absent (`questionStyleVariation`'s early return passes the
possibly-null `htmlContent` through) and `confidence` may be absent. -/
structure RuleResult where
  text : String
  html : Option String
  confidence : Option ℚ
deriving DecidableEq

/-- The common `html` field of the rules:
`htmlContent ? htmlContent.replace(text, result) : result`. -/
def ruleHtml (htmlContent : Option String) (text result : String) : String :=
  match htmlContent with
  | some h => if h == "" then result else replaceFirstSub h text result
  | none => result

/-- The static synonym table of `synonymReplacement`, in source order. -/
def synonymMap : List (String × String) :=
  [("how", "in what way"), ("what", "which"), ("why", "for what reason"),
   ("when", "at what time"), ("where", "in which location"),
   ("can", "is it possible to"), ("will", "shall"), ("would", "could"),
   ("should", "ought to"), ("help", "assist"), ("show", "display"),
   ("explain", "describe"), ("tell", "inform"), ("find", "locate"),
   ("get", "obtain"), ("make", "create"), ("use", "utilize"),
   ("need", "require"), ("want", "desire"), ("process", "procedure"),
   ("method", "approach"), ("system", "platform"), ("feature", "functionality"),
   ("option", "choice"), ("setting", "configuration"), ("data", "information"),
   ("user", "person"), ("admin", "administrator"), ("manage", "handle")]

/-- Synonym replacement: each table entry is word-boundary replaced with
probability `Math.random() > 0.7`, one draw per entry whether or not it
fires.  Confidence 0.9. -/
def synonymReplacement (text ty : String) (htmlContent : Option String)
    (rand : ℕ → ℚ) (k : ℕ) : RuleResult × ℕ :=
  let rk := synonymMap.foldl (fun (acc : String × ℕ) e =>
    if mkRat 7 10 < rand acc.2 then (replaceWordCI acc.1 e.1 e.2, acc.2 + 1)
    else (acc.1, acc.2 + 1)) (text, k)
  ({ text := rk.1, html := some (ruleHtml htmlContent text rk.1),
     confidence := some (mkRat 9 10) }, rk.2)

/-- Sentence restructuring: for questions rewrite a recognized opener; for
answers swap the first two sentences of a `". "`-separated split.
Confidence 0.8; no randomness. -/
def sentenceRestructuring (text ty : String) (htmlContent : Option String)
    (rand : ℕ → ℚ) (k : ℕ) : RuleResult × ℕ :=
  let result :=
    if ty == "question" then
      if jsStartsWith (jsToLower text) "how do i" then
        replacePrefixCI text "how do i" "What is the process to"
      else if jsStartsWith (jsToLower text) "what is" then
        replacePrefixCI text "what is" "Could you explain what"
      else if jsStartsWith (jsToLower text) "can i" then
        replacePrefixCI text "can i" "Is it possible for me to"
      else if jsStartsWith (jsToLower text) "where" then
        replacePrefixCI text "where" "In what location"
      else text
    else
      let sentences := jsSplitOn text ". "
      if 1 < sentences.length then
        match sentences with
        | s0 :: s1 :: rest => String.intercalate ". " (s1 :: s0 :: rest)
        | _ => text
      else text
  ({ text := result, html := some (ruleHtml htmlContent text result),
     confidence := some (mkRat 4 5) }, k)

/-- The formal-to-informal table, in source order. -/
def formalToInformal : List (String × String) :=
  [("utilize", "use"), ("commence", "start"), ("terminate", "end"),
   ("facilitate", "help"), ("endeavor", "try"), ("accomplish", "do"),
   ("subsequently", "then"), ("prior to", "before"), ("in order to", "to")]

/-- The informal-to-formal table, in source order. -/
def informalToFormal : List (String × String) :=
  [("use", "utilize"), ("start", "commence"), ("end", "terminate"),
   ("help", "facilitate"), ("try", "endeavor"), ("do", "accomplish"),
   ("then", "subsequently"), ("before", "prior to"), ("to", "in order to")]

/-- Register shift: one draw picks the direction, then every entry of the
chosen table is word-boundary replaced unconditionally.  Confidence 0.85. -/
def formalInformalSwitch (text ty : String) (htmlContent : Option String)
    (rand : ℕ → ℚ) (k : ℕ) : RuleResult × ℕ :=
  let mapToUse := if mkRat 1 2 < rand k then formalToInformal else informalToFormal
  let result := mapToUse.foldl (fun res e => replaceWordCI res e.1 e.2) text
  ({ text := result, html := some (ruleHtml htmlContent text result),
     confidence := some (mkRat 17 20) }, k + 1)

/-- The keyword alternation `(can|will|should)` of the active/passive
patterns. -/
def apKeywords : List String := ["can", "will", "should"]

/-- Try the keyword alternatives in order: the keyword must match
case-insensitively, be followed by a space and then a nonempty `\w+` run;
the run (as written) and the remainder are returned. -/
def apTryKeyword : List String → List Char → Option (List Char × List Char)
  | [], _ => none
  | kw :: kws, input =>
    match matchTargetCI kw.toList input with
    | some (' ' :: r3) =>
      let run := r3.takeWhile isWordChar
      if run = [] then apTryKeyword kws input
      else some (run, r3.drop run.length)
    | _ => apTryKeyword kws input

/-- Anchored match of `/Pron (can|will|should) (\w+)/i` at the start of the
input: the pronoun (case-insensitively, with no word boundary), a space, a
keyword, a space, and a nonempty word run, returning the run and the
remainder. -/
def apMatchPron (pron : String) (input : List Char) : Option (List Char × List Char) :=
  match matchTargetCI pron.toList input with
  | some (' ' :: r2) => apTryKeyword apKeywords r2
  | _ => none

/-- Global replace of `/Pron (can|will|should) (\w+)/gi` with a replacement
built from the captured word run. -/
def apReplaceAux (pron : String) (mkRepl : List Char → List Char) :
    ℕ → List Char → List Char
  | 0, s => s
  | _ + 1, [] => []
  | fuel + 1, c :: cs =>
    match apMatchPron pron (c :: cs) with
    | some (run, rest) => mkRepl run ++ apReplaceAux pron mkRepl fuel rest
    | none => c :: apReplaceAux pron mkRepl fuel cs

/-- Global replace of an active/passive pronoun pattern on a string. -/
def apReplacePron (s : String) (pron : String) (mkRepl : List Char → List Char) : String :=
  String.mk (apReplaceAux pron mkRepl s.toList.length s.toList)

/-- Search the reversed word run for the rightmost `s` that still has at
least one character before it (the greedy backtracking of `(\w+s)`): on
success the captured group (in original order) and the skipped trailing
characters (in original order) are returned. -/
def apFindLastS : List Char → List Char → Option (List Char × List Char)
  | _, [] => none
  | skipped, c :: cs =>
    if c == 's' && !cs.isEmpty then some ((c :: cs).reverse, skipped)
    else apFindLastS (c :: skipped) cs

/-- Anchored match of `/The system (\w+s)/i`: the literal prefix, then a
word run whose captured part is the longest prefix ending in `s` with a
nonempty `\w+` before it; the remainder (including the skipped tail of the
run) is returned. -/
def apMatchSystem (input : List Char) : Option (List Char × List Char) :=
  match matchTargetCI "The system ".toList input with
  | some r =>
    let run := r.takeWhile isWordChar
    if run = [] then none
    else
      match apFindLastS [] run.reverse with
      | some (group, leftover) => some (group, leftover ++ r.drop run.length)
      | none => none
  | none => none

/-- Global replace of `/The system (\w+s)/gi` with
`It is $1 by the system`. -/
def apReplaceSystemAux : ℕ → List Char → List Char
  | 0, s => s
  | _ + 1, [] => []
  | fuel + 1, c :: cs =>
    match apMatchSystem (c :: cs) with
    | some (group, rest) =>
      "It is ".toList ++ group ++ " by the system".toList ++ apReplaceSystemAux fuel rest
    | none => c :: apReplaceSystemAux fuel cs

/-- Global replace of the third active/passive pattern on a string. -/
def apReplaceSystem (s : String) : String :=
  String.mk (apReplaceSystemAux s.toList.length s.toList)

/-- Active/passive switch: the three patterns are applied in order, each
gated by its own draw `Math.random() > 0.6`.  Confidence 0.7. -/
def activePassiveSwitch (text ty : String) (htmlContent : Option String)
    (rand : ℕ → ℚ) (k : ℕ) : RuleResult × ℕ :=
  let r1 := if mkRat 3 5 < rand k then
      apReplacePron text "I" (fun g => "The ".toList ++ g ++ " process can be".toList)
    else text
  let r2 := if mkRat 3 5 < rand (k + 1) then
      apReplacePron r1 "You" (fun g => "The ".toList ++ g ++ " action can be performed".toList)
    else r1
  let r3 := if mkRat 3 5 < rand (k + 2) then apReplaceSystem r2 else r2
  ({ text := r3, html := some (ruleHtml htmlContent text r3),
     confidence := some (mkRat 7 10) }, k + 3)

/-- The question starters of `questionStyleVariation`, in source order. -/
def questionStarters : List String :=
  ["Could you please explain", "I would like to know",
   "Can you help me understand", "I need information about", "Please tell me"]

/-- Question style variation: for non-questions the input is returned with
the raw `htmlContent` and no confidence; for a question that does not open
with a question word, a randomly chosen starter is prepended to the
lower-cased text.  Confidence 0.8 otherwise. -/
def questionStyleVariation (text ty : String) (htmlContent : Option String)
    (rand : ℕ → ℚ) (k : ℕ) : RuleResult × ℕ :=
  if ty != "question" then
    ({ text := text, html := htmlContent, confidence := none }, k)
  else
    let started := startsAnyCI text
      ["how", "what", "when", "where", "why", "can", "could", "would", "should"]
    let rk : String × ℕ :=
      if !started then
        (jsPickList rand k questionStarters ++ " " ++ jsToLower text, k + 1)
      else (text, k)
    ({ text := rk.1, html := some (ruleHtml htmlContent text rk.1),
       confidence := some (mkRat 4 5) }, rk.2)

/-- The contraction table of `expandContract`, in source order. -/
def contractionsTable : List (String × String) :=
  [("can't", "cannot"), ("won't", "will not"), ("don't", "do not"),
   ("doesn't", "does not"), ("isn't", "is not"), ("aren't", "are not"),
   ("wasn't", "was not"), ("weren't", "were not"), ("haven't", "have not"),
   ("hasn't", "has not"), ("shouldn't", "should not"), ("wouldn't", "would not"),
   ("couldn't", "could not")]

/-- The reversed table built by `Object.fromEntries(...map(([k,v]) => [v,k]))`. -/
def expansionsTable : List (String × String) :=
  contractionsTable.map (fun e => (e.2, e.1))

/-- Contraction expansion/contraction: one draw picks the direction, then
every entry is replaced globally and case-insensitively with no word
boundaries (the source escapes only the apostrophe).  Confidence 0.9. -/
def expandContract (text ty : String) (htmlContent : Option String)
    (rand : ℕ → ℚ) (k : ℕ) : RuleResult × ℕ :=
  let mapToUse := if mkRat 1 2 < rand k then contractionsTable else expansionsTable
  let result := mapToUse.foldl (fun res e => replaceSubCI res e.1 e.2) text
  ({ text := result, html := some (ruleHtml htmlContent text result),
     confidence := some (mkRat 9 10) }, k + 1)

/-- Word order change: for a question of more than three space-separated
words opening with an interrogative, the opener is moved to position 2 of
the remaining words (lower-cased) and the result recapitalized.
Confidence 0.6; no randomness. -/
def changeOrder (text ty : String) (htmlContent : Option String)
    (rand : ℕ → ℚ) (k : ℕ) : RuleResult × ℕ :=
  let result :=
    if ty == "question" then
      let words := jsSplitOn text " "
      if 3 < words.length then
        match words with
        | [] => text
        | w0 :: wrest =>
          if ["how", "what", "when", "where", "why"].contains (jsToLower w0) then
            jsCapitalize (String.intercalate " " (listInsertAt 2 (jsToLower w0) wrest))
          else text
      else text
    else text
  ({ text := result, html := some (ruleHtml htmlContent text result),
     confidence := some (mkRat 3 5) }, k)

/-- The intensifier adverbs of `shiftEmphasis`, in source order. -/
def emphasisWords : List String :=
  ["particularly", "specifically", "especially", "exactly", "precisely"]

/-- Emphasis shift: one draw always picks the adverb; for questions every
occurrence of `how` and of `what` (case-insensitive, unbounded) gains the
adverb.  The html falls back to the plain result when `htmlContent` is
falsy.  Confidence 0.7. -/
def shiftEmphasis (text ty : String) (htmlContent : Option String)
    (rand : ℕ → ℚ) (k : ℕ) : RuleResult × ℕ :=
  let emphasis := jsPickList rand k emphasisWords
  let result :=
    if ty == "question" then
      replaceSubCI (replaceSubCI text "how" ("how " ++ emphasis)) "what" ("what " ++ emphasis)
    else text
  let htmlResult : Option String :=
    match htmlContent with
    | some h => if h == "" then some h else some (replaceFirstSub h text result)
    | none => none
  ({ text := result, html := some (jsOrStr htmlResult result),
     confidence := some (mkRat 7 10) }, k + 1)

/-- The pronoun table of `changePerspective`, in source order. -/
def perspectiveMap : List (String × String) :=
  [("I", "you"), ("me", "you"), ("my", "your"), ("mine", "yours"),
   ("you", "one"), ("your", "one's"), ("yours", "one's")]

/-- Perspective change: each pronoun entry is word-boundary replaced with
probability `Math.random() > 0.7`, one draw per entry.  Confidence 0.6. -/
def changePerspective (text ty : String) (htmlContent : Option String)
    (rand : ℕ → ℚ) (k : ℕ) : RuleResult × ℕ :=
  let rk := perspectiveMap.foldl (fun (acc : String × ℕ) e =>
    if mkRat 7 10 < rand acc.2 then (replaceWordCI acc.1 e.1 e.2, acc.2 + 1)
    else (acc.1, acc.2 + 1)) (text, k)
  ({ text := rk.1, html := some (ruleHtml htmlContent text rk.1),
     confidence := some (mkRat 3 5) }, rk.2)

/-- The contextual phrases of `contextualVariation`, in source order. -/
def contexts : List String :=
  ["In this system,", "For this application,", "When using this platform,",
   "In the context of this demo,"]

/-- Contextual variation: for questions, with probability
`Math.random() > 0.5` a randomly chosen context phrase (a second draw) is
prepended to the lower-cased text.  Confidence 0.8. -/
def contextualVariation (text ty : String) (htmlContent : Option String)
    (rand : ℕ → ℚ) (k : ℕ) : RuleResult × ℕ :=
  let rk : String × ℕ :=
    if ty == "question" then
      if mkRat 1 2 < rand k then
        (jsPickList rand (k + 1) contexts ++ " " ++ jsToLower text, k + 2)
      else (text, k + 1)
    else (text, k)
  ({ text := rk.1, html := some (ruleHtml htmlContent text rk.1),
     confidence := some (mkRat 4 5) }, rk.2)

/-- `applyParaphraseTechnique`: strip the html from the text and dispatch
on the technique name; an unknown technique returns the clean text with
the raw `htmlContent` and no confidence. -/
def applyParaphraseTechnique (text technique ty : String)
    (htmlContent : Option String) (rand : ℕ → ℚ) (k : ℕ) : RuleResult × ℕ :=
  let cleanText := stripHtml text
  match technique with
  | "synonymReplacement" => synonymReplacement cleanText ty htmlContent rand k
  | "sentenceRestructuring" => sentenceRestructuring cleanText ty htmlContent rand k
  | "formalInformal" => formalInformalSwitch cleanText ty htmlContent rand k
  | "activePassive" => activePassiveSwitch cleanText ty htmlContent rand k
  | "questionStyle" => questionStyleVariation cleanText ty htmlContent rand k
  | "expandContract" => expandContract cleanText ty htmlContent rand k
  | "orderChange" => changeOrder cleanText ty htmlContent rand k
  | "emphasisShift" => shiftEmphasis cleanText ty htmlContent rand k
  | "perspectiveChange" => changePerspective cleanText ty htmlContent rand k
  | "contextualVariation" => contextualVariation cleanText ty htmlContent rand k
  | _ => ({ text := cleanText, html := htmlContent, confidence := none }, k)

/-- The id of a generated variant: `index + 1` (a number) in the first
pass, the string `creative_${index + 1}` in the creative pass. -/
inductive VariantId where
  | num (n : ℕ)
  | creative (n : ℕ)
deriving DecidableEq

/-- One entry of the list `generateVariants` returns:
`{id, text, html, technique, confidence}`. -/
structure VariantEntry where
  id : VariantId
  text : String
  html : String
  technique : String
  confidence : ℚ
deriving DecidableEq

/-- The fixed, ordered technique catalog of `generateVariants`. -/
def techniques : List String :=
  ["synonymReplacement", "sentenceRestructuring", "formalInformal",
   "activePassive", "questionStyle", "expandContract", "orderChange",
   "emphasisShift", "perspectiveChange", "contextualVariation"]

/-- The fixed technique pairs of `generateCreativeVariants`. -/
def combinations : List (List String) :=
  [["synonymReplacement", "formalInformal"],
   ["sentenceRestructuring", "expandContract"],
   ["questionStyle", "emphasisShift"],
   ["contextualVariation", "synonymReplacement"]]

/-- The shape of `applyParaphraseTechnique` as the generator's `try` block
sees it: a call that can raise (return an error), embedding the fact that
a JavaScript rule invocation may throw. -/
abbrev ApplyFn :=
  String → String → String → Option String → (ℕ → ℚ) → ℕ →
    Except String (RuleResult × ℕ)

/-- The first pass of `generateVariants`: one entry per technique, in
order.  The source guards each push with `variant && variant !==
originalText`, but `variant` is the object a rule returned — an object is
truthy and never strictly equal to a string, so the guard always holds
and every technique pushes its entry, even one whose text equals the
source text; the guard is therefore elided here.  The entry is
`{id: index+1, text, html: variant.html || variant.text, technique,
confidence: variant.confidence || 0.8}`. -/
def applyTechniquesE (apply : ApplyFn) (originalText ty : String)
    (htmlContent : Option String) (rand : ℕ → ℚ) :
    List String → ℕ → ℕ → Except String (List VariantEntry × ℕ)
  | [], _, k => .ok ([], k)
  | technique :: ts, index, k => do
    let (variant, k1) ← apply originalText technique ty htmlContent rand k
    let (rest, k2) ← applyTechniquesE apply originalText ty htmlContent rand ts (index + 1) k1
    pure (({ id := VariantId.num (index + 1), text := variant.text,
             html := jsOrStr variant.html variant.text, technique := technique,
             confidence := jsOrConf variant.confidence } : VariantEntry) :: rest, k2)

/-- The inner fold of one creative combination: apply each technique to
the running `{text, html}` pair. -/
def applyCombinationE (apply : ApplyFn) (ty : String) (rand : ℕ → ℚ) :
    List String → String → Option String → ℕ →
      Except String ((String × Option String) × ℕ)
  | [], t, h, k => .ok ((t, h), k)
  | technique :: ts, t, h, k => do
    let (res, k1) ← apply t technique ty h rand k
    applyCombinationE apply ty rand ts res.text res.html k1

/-- `generateCreativeVariants`: each combination starts from
`{text: originalText, html: htmlContent}`, chains its two techniques, and
pushes an entry only when the resulting text differs from the source text
(here the source compares `result.text !== originalText`, a genuine
string comparison). -/
def generateCreativeVariantsE (apply : ApplyFn) (originalText ty : String)
    (htmlContent : Option String) (rand : ℕ → ℚ) :
    List (List String) → ℕ → ℕ → Except String (List VariantEntry × ℕ)
  | [], _, k => .ok ([], k)
  | combination :: cs, index, k => do
    let (res, k1) ← applyCombinationE apply ty rand combination originalText htmlContent k
    let (rest, k2) ← generateCreativeVariantsE apply originalText ty htmlContent rand cs (index + 1) k1
    pure ((if res.1 ≠ originalText then
        [({ id := VariantId.creative (index + 1), text := res.1,
            html := jsOrStr res.2 res.1,
            technique := "combined_" ++ String.intercalate "_" combination,
            confidence := mkRat 7 10 } : VariantEntry)]
      else []) ++ rest, k2)

/-- The `try` block of `generateVariants`: the first pass over the
technique catalog, then the creative pass, then `slice(0, 12)`. -/
def generateVariantsTry (apply : ApplyFn) (originalText ty : String)
    (htmlContent : Option String) (rand : ℕ → ℚ) : Except String (List VariantEntry) :=
  match applyTechniquesE apply originalText ty htmlContent rand techniques 0 0 with
  | .error e => .error e
  | .ok (variants, k) =>
    match generateCreativeVariantsE apply originalText ty htmlContent rand combinations 0 k with
    | .error e => .error e
    | .ok (creativeVariants, _) => .ok ((variants ++ creativeVariants).take 12)

/-- `generateVariants` with its `try`/`catch`, over an arbitrary (possibly
throwing) rule-application function: any error of the body is caught and
the empty list returned. -/
def generateVariantsWith (apply : ApplyFn) (originalText ty : String)
    (htmlContent : Option String) (rand : ℕ → ℚ) : List VariantEntry :=
  match generateVariantsTry apply originalText ty htmlContent rand with
  | .ok variants => variants
  | .error _ => []

/-- The concrete rules never throw: `applyParaphraseTechnique` lifted into
the fallible shape. -/
def applyParaphraseTechniqueE : ApplyFn :=
  fun text technique ty htmlContent rand k =>
    .ok (applyParaphraseTechnique text technique ty htmlContent rand k)

/-- The variant service's `generateVariants(originalText, type,
htmlContent)` with the concrete paraphrase rules. -/
def generateVariants (originalText ty : String) (htmlContent : Option String)
    (rand : ℕ → ℚ) : List VariantEntry :=
  generateVariantsWith applyParaphraseTechniqueE originalText ty htmlContent rand

/-- The body of the admin route `PUT /admin/questions/:id` (part_006 lines
656-689): `{question_text, answer_text, answer_html, status}` from the
request, where `status` may be absent. -/
structure UpdateQuestionRequest where
  question_text : String
  answer_text : String
  answer_html : String
  status : Option String
deriving DecidableEq

/-- JavaScript `status || 'Draft'`: an absent (or empty, hence falsy)
status falls back to `Draft`. -/
def jsOrDraft (status : Option String) : String :=
  match status with
  | some s => if s == "" then "Draft" else s
  | none => "Draft"

/-- The update performed by `PUT /admin/questions/:id` on the question row
and its answer row: both texts are updated and both statuses are set to
`status || 'Draft'`; all prior variants are destroyed and regenerated via
`generateVariants` (question variants from the question text with no html,
answer variants from the answer text with the answer html).  Row ids of
the new variant rows are assigned by the store and modelled as 0; the
model default of `is_approved` is true. -/
def updateQuestion (q : QuestionRow) (a : AnswerRow) (req : UpdateQuestionRequest)
    (rand1 rand2 : ℕ → ℚ) : QuestionRow × AnswerRow :=
  let questionVariants := generateVariants req.question_text "question" none rand1
  let answerVariants := generateVariants req.answer_text "answer" (some req.answer_html) rand2
  ({ q with
      question_text := req.question_text,
      status := jsOrDraft req.status,
      variants := questionVariants.map (fun v =>
        { id := 0, variant_text := v.text, is_approved := true }) },
   { a with
      answer_text := req.answer_text,
      answer_html := req.answer_html,
      status := jsOrDraft req.status,
      variants := answerVariants.map (fun v =>
        { id := 0, variant_text := v.text, variant_html := v.html, is_approved := true }) })

/-- A rule-application function that always throws, exercising the `catch`
of `generateVariants`. -/
def throwingApply : ApplyFn :=
  fun _ _ _ _ _ _ => .error "rule failure"

/-- Example row: an answer row for the update-route theorems. -/
def exAnswer : AnswerRow where
  id := 4
  answer_text := "Use the reset portal."
  answer_html := "Use the reset portal."
  status := "Final"
  variants := []

/-- Example request: an update that supplies no explicit status. -/
def exUpdateReq : UpdateQuestionRequest where
  question_text := "new question text"
  answer_text := "new answer text"
  answer_html := "<p>new answer text</p>"
  status := none

/-- The number of matched words is at most the number of words of the
first argument. -/
theorem matchCount_le_len (w1 w2 : List String) :
    (w1.filter (fun word1 =>
      w2.any (fun word2 =>
        jsIncludes word1 word2 || jsIncludes word2 word1))).length ≤ w1.length :=
  List.length_filter_le _ _

/-- Unfolding of `calculateSimilarity` in the non-degenerate case. -/
theorem calculateSimilarity_of_ne (str1 str2 : String)
    (h1 : simTokens str1 ≠ []) (h2 : simTokens str2 ≠ []) :
    calculateSimilarity str1 str2 =
      mkRat ((simTokens str1).filter (fun word1 =>
          (simTokens str2).any (fun word2 =>
            jsIncludes word1 word2 || jsIncludes word2 word1))).length
        (max (simTokens str1).length (simTokens str2).length) := by
  unfold calculateSimilarity
  rw [if_neg]
  push_neg
  exact ⟨fun h => h1 (List.length_eq_zero.mp h), fun h => h2 (List.length_eq_zero.mp h)⟩

/-- The score is `0` whenever either token set is empty. -/
theorem calculateSimilarity_zero_of_empty (str1 str2 : String)
    (h : simTokens str1 = [] ∨ simTokens str2 = []) :
    calculateSimilarity str1 str2 = 0 := by
  unfold calculateSimilarity
  rw [if_pos]
  rcases h with h | h
  · exact Or.inl (by rw [h]; rfl)
  · exact Or.inr (by rw [h]; rfl)

/-- Claim C6: the similarity score always lies in `[0, 1]`, and it is `0`
whenever either argument yields an empty token set (in particular for the
empty string). -/
theorem calculateSimilarity_bounds (str1 str2 : String) :
    0 ≤ calculateSimilarity str1 str2 ∧ calculateSimilarity str1 str2 ≤ 1 ∧
      ((simTokens str1 = [] ∨ simTokens str2 = []) →
        calculateSimilarity str1 str2 = 0) := by
  by_cases h : (simTokens str1).length = 0 ∨ (simTokens str2).length = 0
  · unfold calculateSimilarity
    rw [if_pos h]
    exact ⟨le_refl 0, zero_le_one, fun _ => rfl⟩
  · push_neg at h
    have h1 : simTokens str1 ≠ [] := fun he => h.1 (by rw [he]; rfl)
    have h2 : simTokens str2 ≠ [] := fun he => h.2 (by rw [he]; rfl)
    rw [calculateSimilarity_of_ne str1 str2 h1 h2]
    rw [Rat.mkRat_eq_div]
    have hden : (0 : ℚ) < ((max (simTokens str1).length (simTokens str2).length : ℕ) : ℚ) := by
      have : 0 < max (simTokens str1).length (simTokens str2).length :=
        lt_of_lt_of_le (Nat.pos_of_ne_zero h.1) (le_max_left _ _)
      exact_mod_cast this
    refine ⟨div_nonneg (by positivity) (le_of_lt hden), ?_, fun hc => ?_⟩
    · rw [div_le_one hden]
      have hle : ((simTokens str1).filter (fun word1 =>
          (simTokens str2).any (fun word2 =>
            jsIncludes word1 word2 || jsIncludes word2 word1))).length ≤
          max (simTokens str1).length (simTokens str2).length :=
        le_trans (matchCount_le_len _ _) (le_max_left _ _)
      exact_mod_cast hle
    · rcases hc with hc | hc
      · exact absurd hc h1
      · exact absurd hc h2

/-- Witness for claim C6 at a concrete input: the empty string yields an
empty token set, so the score against any other string is `0`. -/
theorem calculateSimilarity_bounds_witness :
    calculateSimilarity "" "anything" = 0 :=
  (calculateSimilarity_bounds "" "anything").2.2 (Or.inl (by decide))

/-- Counterexample for claim C5: the score is not symmetric.  With
`str1 = "aaa aaa"` and `str2 = "aaa"`, both words of `str1` match, so the
score is `2 / 2 = 1`, while in the other order only one word matches and
the score is `1 / 2`. -/
theorem calculateSimilarity_not_symm :
    calculateSimilarity "aaa aaa" "aaa" ≠ calculateSimilarity "aaa" "aaa aaa" := by
  decide

/-- A word of `w1` is matched against `w2` exactly when some word of `w2`
contains it or is contained in it; being unmatched throughout is a
symmetric condition on the two token lists. -/
theorem match_none_swap (w1 w2 : List String)
    (h : ∀ a ∈ w1, ¬(w2.any (fun b => jsIncludes a b || jsIncludes b a) = true)) :
    ∀ b ∈ w2, ¬(w1.any (fun a => jsIncludes b a || jsIncludes a b) = true) := by
  intro b hb hany
  rw [List.any_eq_true] at hany
  obtain ⟨a, ha, hx⟩ := hany
  apply h a ha
  rw [List.any_eq_true]
  refine ⟨b, hb, ?_⟩
  rwa [Bool.or_comm] at hx

theorem matchCount_zero_symm (w1 w2 : List String) :
    ((w1.filter (fun word1 =>
        w2.any (fun word2 =>
          jsIncludes word1 word2 || jsIncludes word2 word1))).length = 0 ↔
     (w2.filter (fun word1 =>
        w1.any (fun word2 =>
          jsIncludes word1 word2 || jsIncludes word2 word1))).length = 0) := by
  rw [List.length_eq_zero, List.length_eq_zero, List.filter_eq_nil_iff,
    List.filter_eq_nil_iff]
  exact ⟨match_none_swap w1 w2, match_none_swap w2 w1⟩

/-- Amended claim C5: the score is not symmetric as a value, but vanishing
is symmetric: `calculateSimilarity a b = 0` exactly when
`calculateSimilarity b a = 0`. -/
theorem calculateSimilarity_zero_symm (a b : String) :
    calculateSimilarity a b = 0 ↔ calculateSimilarity b a = 0 := by
  by_cases h1 : simTokens a = []
  · have hz1 : calculateSimilarity a b = 0 :=
      calculateSimilarity_zero_of_empty a b (Or.inl h1)
    have hz2 : calculateSimilarity b a = 0 :=
      calculateSimilarity_zero_of_empty b a (Or.inr h1)
    rw [hz1, hz2]
  · by_cases h2 : simTokens b = []
    · have hz1 : calculateSimilarity a b = 0 :=
        calculateSimilarity_zero_of_empty a b (Or.inr h2)
      have hz2 : calculateSimilarity b a = 0 :=
        calculateSimilarity_zero_of_empty b a (Or.inl h2)
      rw [hz1, hz2]
    · rw [calculateSimilarity_of_ne a b h1 h2, calculateSimilarity_of_ne b a h2 h1]
      have hma : max (simTokens a).length (simTokens b).length ≠ 0 := by
        intro hc
        exact h1 (List.length_eq_zero.mp (Nat.max_eq_zero_iff.mp hc).1)
      have hmb : max (simTokens b).length (simTokens a).length ≠ 0 := by
        intro hc
        exact h2 (List.length_eq_zero.mp (Nat.max_eq_zero_iff.mp hc).1)
      rw [Rat.mkRat_eq_zero (by exact_mod_cast hma), Rat.mkRat_eq_zero (by exact_mod_cast hmb)]
      have := matchCount_zero_symm (simTokens a) (simTokens b)
      constructor
      · intro hc
        exact_mod_cast this.mp (by exact_mod_cast hc)
      · intro hc
        exact_mod_cast this.mpr (by exact_mod_cast hc)

/-- The inner loop over one question equals the candidate-level fold over
the candidates that question contributes. -/
theorem processQuestion_eq_foldl (lm : String) (rand : ℕ → ℚ) (st : MatchState)
    (q : QuestionRow) :
    processQuestion lm rand st q = (candidatesOf q).foldl (stepCandidate lm rand) st := by
  rcases hq : q.answer with _ | a
  · simp [processQuestion, candidatesOf, hq]
  · simp only [processQuestion, candidatesOf, hq, List.foldl_cons, List.foldl_map]
    rfl

/-- The whole matching loop equals the candidate-level fold over the
flattened candidate list. -/
theorem matchLoop_eq_foldl (lm : String) (rand : ℕ → ℚ) :
    ∀ (qs : List QuestionRow) (st : MatchState),
      qs.foldl (processQuestion lm rand) st =
        (qs.flatMap candidatesOf).foldl (stepCandidate lm rand) st
  | [], _ => rfl
  | q :: qs, st => by
    rw [List.foldl_cons, List.flatMap_cons, List.foldl_append,
      processQuestion_eq_foldl, matchLoop_eq_foldl lm rand qs]

/-- Each candidate step turns the best score into the max of the old best
score and the candidate's score. -/
theorem stepCandidate_bestScore (lm : String) (rand : ℕ → ℚ) (st : MatchState)
    (c : MatchCandidate) :
    (stepCandidate lm rand st c).bestScore = max st.bestScore (candScore lm c) := by
  cases c with
  | original q a =>
    simp only [stepCandidate, considerOriginal, candScore, MatchCandidate.text]
    split_ifs with hlt
    · exact (max_eq_right (le_of_lt hlt)).symm
    · exact (max_eq_left (not_lt.mp hlt)).symm
  | variant q a v =>
    simp only [stepCandidate, considerVariant, candScore, MatchCandidate.text]
    split_ifs with hlt
    · cases a.variants with
      | nil => exact (max_eq_right (le_of_lt hlt)).symm
      | cons av avs => exact (max_eq_right (le_of_lt hlt)).symm
    · exact (max_eq_left (not_lt.mp hlt)).symm

/-- The best score after the fold is the running max of the candidate
scores. -/
theorem foldl_bestScore (lm : String) (rand : ℕ → ℚ) :
    ∀ (cs : List MatchCandidate) (st : MatchState),
      ((cs.foldl (stepCandidate lm rand) st).bestScore) =
        (cs.map (candScore lm)).foldl max st.bestScore
  | [], _ => rfl
  | c :: cs, st => by
    rw [List.foldl_cons, List.map_cons, List.foldl_cons,
      foldl_bestScore lm rand cs, stepCandidate_bestScore]

/-- Each candidate step preserves the loop invariant. -/
theorem stepCandidate_resolved (lm : String) (rand : ℕ → ℚ)
    (all : List MatchCandidate) (st : MatchState) (c : MatchCandidate)
    (hc : c ∈ all) (h : InvResolved lm all st) :
    InvResolved lm all (stepCandidate lm rand st c) := by
  cases c with
  | original q a =>
    unfold InvResolved
    simp only [stepCandidate, considerOriginal]
    split_ifs with hlt
    · exact Or.inr ⟨.original q a, hc, _, rfl, ⟨rfl, rfl, rfl, rfl⟩, rfl, rfl⟩
    · exact h
  | variant q a v =>
    unfold InvResolved
    simp only [stepCandidate, considerVariant]
    split_ifs with hlt
    · rcases hv : a.variants with _ | ⟨av, avs⟩
      · refine Or.inr ⟨.variant q a v, hc, _, rfl, ⟨rfl, rfl, ?_⟩, rfl, rfl⟩
        exact Or.inl ⟨hv, rfl, rfl⟩
      · refine Or.inr ⟨.variant q a v, hc, _, rfl, ⟨rfl, rfl, ?_⟩, rfl, rfl⟩
        refine Or.inr ⟨jsPick rand st.k av avs, ?_, rfl, rfl⟩
        rw [hv]
        exact List.get_mem _ _ _
    · exact h

/-- The candidate fold preserves the loop invariant. -/
theorem foldl_resolved (lm : String) (rand : ℕ → ℚ) (all : List MatchCandidate) :
    ∀ (cs : List MatchCandidate), (∀ c ∈ cs, c ∈ all) → ∀ st : MatchState,
      InvResolved lm all st →
      InvResolved lm all (cs.foldl (stepCandidate lm rand) st)
  | [], _, _, h => h
  | c :: cs, hsub, st, h => by
    rw [List.foldl_cons]
    exact foldl_resolved lm rand all cs
      (fun x hx => hsub x (List.mem_cons_of_mem c hx)) _
      (stepCandidate_resolved lm rand all st c (hsub c (List.mem_cons_self c cs)) h)

/-- Claim C3: when the best similarity over all candidates exceeds 0.3 the
matcher returns the resolution of a best-scoring candidate, and otherwise
it returns the fixed no-information fallback with null ids. -/
theorem findMatchingAnswer_threshold (agentId : ℕ) (db : List QuestionRow)
    (userMessage : String) (rand : ℕ → ℚ) :
    (bestSimilarity agentId db userMessage ≤ mkRat 3 10 →
      findMatchingAnswer agentId (Except.ok db) userMessage rand = noInfoResponse) ∧
    (mkRat 3 10 < bestSimilarity agentId db userMessage →
      ∃ c ∈ matchCandidates agentId db,
        candScore (jsTrim (jsToLower userMessage)) c =
          bestSimilarity agentId db userMessage ∧
        resolvesTo c (findMatchingAnswer agentId (Except.ok db) userMessage rand)) := by
  have hflat : (loadFinalQuestions agentId db).foldl
      (processQuestion (jsTrim (jsToLower userMessage)) rand)
      { bestMatch := none, bestScore := 0, k := 0 } =
      (matchCandidates agentId db).foldl
        (stepCandidate (jsTrim (jsToLower userMessage)) rand)
        { bestMatch := none, bestScore := 0, k := 0 } :=
    matchLoop_eq_foldl _ rand (loadFinalQuestions agentId db) _
  have hrun : findMatchingAnswer agentId (Except.ok db) userMessage rand =
      (match ((matchCandidates agentId db).foldl
          (stepCandidate (jsTrim (jsToLower userMessage)) rand)
          { bestMatch := none, bestScore := 0, k := 0 }).bestMatch with
       | some bm =>
          if mkRat 3 10 < ((matchCandidates agentId db).foldl
              (stepCandidate (jsTrim (jsToLower userMessage)) rand)
              { bestMatch := none, bestScore := 0, k := 0 }).bestScore
          then bm else noInfoResponse
       | none => noInfoResponse) := by
    have hrun0 : findMatchingAnswer agentId (Except.ok db) userMessage rand =
        (match ((loadFinalQuestions agentId db).foldl
            (processQuestion (jsTrim (jsToLower userMessage)) rand)
            { bestMatch := none, bestScore := 0, k := 0 }).bestMatch with
         | some bm =>
            if mkRat 3 10 < ((loadFinalQuestions agentId db).foldl
                (processQuestion (jsTrim (jsToLower userMessage)) rand)
                { bestMatch := none, bestScore := 0, k := 0 }).bestScore
            then bm else noInfoResponse
         | none => noInfoResponse) := rfl
    rw [hflat] at hrun0
    exact hrun0
  have hscore : ((matchCandidates agentId db).foldl
      (stepCandidate (jsTrim (jsToLower userMessage)) rand)
      { bestMatch := none, bestScore := 0, k := 0 }).bestScore =
      bestSimilarity agentId db userMessage := by
    rw [foldl_bestScore]
    rfl
  have hinv : InvResolved (jsTrim (jsToLower userMessage)) (matchCandidates agentId db)
      ((matchCandidates agentId db).foldl
        (stepCandidate (jsTrim (jsToLower userMessage)) rand)
        { bestMatch := none, bestScore := 0, k := 0 }) :=
    foldl_resolved _ rand _ _ (fun _ hx => hx) _ (Or.inl ⟨rfl, rfl⟩)
  constructor
  · intro hle
    rcases hbm : ((matchCandidates agentId db).foldl
        (stepCandidate (jsTrim (jsToLower userMessage)) rand)
        { bestMatch := none, bestScore := 0, k := 0 }).bestMatch with _ | bm
    · rw [hbm] at hrun
      exact hrun
    · rw [hbm] at hrun
      have h2 : findMatchingAnswer agentId (Except.ok db) userMessage rand =
          (if mkRat 3 10 < ((matchCandidates agentId db).foldl
              (stepCandidate (jsTrim (jsToLower userMessage)) rand)
              { bestMatch := none, bestScore := 0, k := 0 }).bestScore
           then bm else noInfoResponse) := hrun
      have hC : ¬ (mkRat 3 10 < ((matchCandidates agentId db).foldl
          (stepCandidate (jsTrim (jsToLower userMessage)) rand)
          { bestMatch := none, bestScore := 0, k := 0 }).bestScore) := by
        rw [hscore]
        exact not_lt.mpr hle
      rw [if_neg hC] at h2
      exact h2
  · intro hgt
    rcases hinv with ⟨hnone, hzero⟩ | ⟨c, hcmem, p, hsome, hres, hpscore, hcscore⟩
    · exfalso
      rw [← hscore, hzero] at hgt
      exact absurd hgt (by decide)
    · rw [hsome] at hrun
      have h2 : findMatchingAnswer agentId (Except.ok db) userMessage rand =
          (if mkRat 3 10 < ((matchCandidates agentId db).foldl
              (stepCandidate (jsTrim (jsToLower userMessage)) rand)
              { bestMatch := none, bestScore := 0, k := 0 }).bestScore
           then p else noInfoResponse) := hrun
      rw [if_pos (by rw [hscore]; exact hgt)] at h2
      refine ⟨c, hcmem, by rw [hcscore, hscore], ?_⟩
      rw [h2]
      exact hres

/-- Witness for claim C3 (scenario B of the spec): one Final question
about the return policy; the utterance clears the 0.3 threshold and the
result resolves a best-scoring candidate. -/
theorem findMatchingAnswer_threshold_witness :
    mkRat 3 10 < bestSimilarity 1 [exQuestion] "what's the return policy" ∧
    ∃ c ∈ matchCandidates 1 [exQuestion],
      candScore (jsTrim (jsToLower "what's the return policy")) c =
        bestSimilarity 1 [exQuestion] "what's the return policy" ∧
      resolvesTo c (findMatchingAnswer 1 (Except.ok [exQuestion])
        "what's the return policy" (fun _ => 0)) :=
  ⟨by decide,
   (findMatchingAnswer_threshold 1 [exQuestion] "what's the return policy"
     (fun _ => 0)).2 (by decide)⟩

/-- A question that is not Final-with-Final-answer is dropped by the load
of the candidate pool. -/
theorem loadFinalQuestions_drops_draft (agentId : ℕ) (db1 db2 : List QuestionRow)
    (q : QuestionRow)
    (h : q.status = "Draft" ∨ ∃ a, q.answer = some a ∧ a.status = "Draft") :
    loadFinalQuestions agentId (db1 ++ q :: db2) =
      loadFinalQuestions agentId (db1 ++ db2) := by
  unfold loadFinalQuestions
  rw [List.filter_append, List.filter_append, List.filter_cons]
  rcases h with h | ⟨a, ha, hst⟩
  · rw [if_neg (by simp [h])]
  · by_cases hq : (q.agent_id == agentId && q.status == "Final") = true
    · rw [if_pos hq, List.filterMap_append, List.filterMap_append,
        List.filterMap_cons]
      simp [ha, hst]
    · rw [if_neg hq]

/-- Claim C4: a Draft question, or one whose answer is Draft, is invisible
to the matcher — removing it from the stored rows leaves the result of
`findMatchingAnswer` unchanged, whatever the utterance. -/
theorem findMatchingAnswer_draft_invisible (agentId : ℕ)
    (db1 db2 : List QuestionRow) (q : QuestionRow) (userMessage : String)
    (rand : ℕ → ℚ)
    (h : q.status = "Draft" ∨ ∃ a, q.answer = some a ∧ a.status = "Draft") :
    findMatchingAnswer agentId (Except.ok (db1 ++ q :: db2)) userMessage rand =
      findMatchingAnswer agentId (Except.ok (db1 ++ db2)) userMessage rand := by
  show findMatchingAnswerCore agentId (db1 ++ q :: db2) userMessage rand =
    findMatchingAnswerCore agentId (db1 ++ db2) userMessage rand
  unfold findMatchingAnswerCore
  rw [loadFinalQuestions_drops_draft agentId db1 db2 q h]

/-- Witness for claim C4: a Draft question whose text equals the utterance
verbatim still yields the no-information fallback. -/
theorem findMatchingAnswer_draft_invisible_witness :
    findMatchingAnswer 1 (Except.ok [exDraftQuestion]) "password reset"
      (fun _ => 0) = noInfoResponse :=
  (findMatchingAnswer_draft_invisible 1 [] [] exDraftQuestion "password reset"
    (fun _ => 0) (Or.inl rfl)).trans (by decide)

/-- Claim C7: an exception during matching (here: a failed load of the
candidate pool) is caught and converted to the fixed
technical-difficulties payload with null ids; the matcher itself is a
total function and propagates nothing. -/
theorem findMatchingAnswer_catches (agentId : ℕ) (e : String)
    (userMessage : String) (rand : ℕ → ℚ) :
    findMatchingAnswer agentId (Except.error e) userMessage rand =
      technicalDifficultiesResponse ∧
    technicalDifficultiesResponse.question_id = none ∧
    technicalDifficultiesResponse.answer_id = none :=
  ⟨rfl, rfl, rfl⟩

/-- Two runs of one candidate step that differ only in the random stream
keep equal best scores and equal best-match ids. -/
theorem stepCandidate_ids (lm : String) (r1 r2 : ℕ → ℚ) (st1 st2 : MatchState)
    (c : MatchCandidate) (hs : st1.bestScore = st2.bestScore)
    (hbm : (st1.bestMatch = none ∧ st2.bestMatch = none) ∨
      ∃ p1 p2, st1.bestMatch = some p1 ∧ st2.bestMatch = some p2 ∧
        p1.question_id = p2.question_id ∧ p1.answer_id = p2.answer_id) :
    (stepCandidate lm r1 st1 c).bestScore = (stepCandidate lm r2 st2 c).bestScore ∧
    (((stepCandidate lm r1 st1 c).bestMatch = none ∧
      (stepCandidate lm r2 st2 c).bestMatch = none) ∨
      ∃ p1 p2, (stepCandidate lm r1 st1 c).bestMatch = some p1 ∧
        (stepCandidate lm r2 st2 c).bestMatch = some p2 ∧
        p1.question_id = p2.question_id ∧ p1.answer_id = p2.answer_id) := by
  cases c with
  | original q a =>
    simp only [stepCandidate, considerOriginal]
    rw [hs]
    split_ifs with h
    · exact ⟨rfl, Or.inr ⟨_, _, rfl, rfl, rfl, rfl⟩⟩
    · exact ⟨hs, hbm⟩
  | variant q a v =>
    simp only [stepCandidate, considerVariant]
    rw [hs]
    split_ifs with h
    · cases a.variants with
      | nil => exact ⟨rfl, Or.inr ⟨_, _, rfl, rfl, rfl, rfl⟩⟩
      | cons av avs => exact ⟨rfl, Or.inr ⟨_, _, rfl, rfl, rfl, rfl⟩⟩
    · exact ⟨hs, hbm⟩

/-- The id-equality relation of `stepCandidate_ids` is preserved by the
whole candidate fold. -/
theorem foldl_ids (lm : String) (r1 r2 : ℕ → ℚ) :
    ∀ (cs : List MatchCandidate) (st1 st2 : MatchState),
      st1.bestScore = st2.bestScore →
      ((st1.bestMatch = none ∧ st2.bestMatch = none) ∨
        ∃ p1 p2, st1.bestMatch = some p1 ∧ st2.bestMatch = some p2 ∧
          p1.question_id = p2.question_id ∧ p1.answer_id = p2.answer_id) →
      (cs.foldl (stepCandidate lm r1) st1).bestScore =
        (cs.foldl (stepCandidate lm r2) st2).bestScore ∧
      (((cs.foldl (stepCandidate lm r1) st1).bestMatch = none ∧
        (cs.foldl (stepCandidate lm r2) st2).bestMatch = none) ∨
        ∃ p1 p2, (cs.foldl (stepCandidate lm r1) st1).bestMatch = some p1 ∧
          (cs.foldl (stepCandidate lm r2) st2).bestMatch = some p2 ∧
          p1.question_id = p2.question_id ∧ p1.answer_id = p2.answer_id)
  | [], _, _, hs, hbm => ⟨hs, hbm⟩
  | c :: cs, st1, st2, hs, hbm => by
    rw [List.foldl_cons, List.foldl_cons]
    obtain ⟨hs2, hbm2⟩ := stepCandidate_ids lm r1 r2 st1 st2 c hs hbm
    exact foldl_ids lm r1 r2 cs _ _ hs2 hbm2

/-- Claim C9: the outcome of the random draws never changes which question
matched — two runs of `findMatchingAnswer` on the same stored rows and the
same utterance return the same `question_id` and the same `answer_id`,
whatever the two random streams. -/
theorem findMatchingAnswer_rand_irrelevant_ids (agentId : ℕ)
    (db : List QuestionRow) (userMessage : String) (r1 r2 : ℕ → ℚ) :
    (findMatchingAnswer agentId (Except.ok db) userMessage r1).question_id =
      (findMatchingAnswer agentId (Except.ok db) userMessage r2).question_id ∧
    (findMatchingAnswer agentId (Except.ok db) userMessage r1).answer_id =
      (findMatchingAnswer agentId (Except.ok db) userMessage r2).answer_id := by
  have hrun1 : findMatchingAnswer agentId (Except.ok db) userMessage r1 =
      (match ((loadFinalQuestions agentId db).foldl
          (processQuestion (jsTrim (jsToLower userMessage)) r1)
          { bestMatch := none, bestScore := 0, k := 0 }).bestMatch with
       | some bm =>
          if mkRat 3 10 < ((loadFinalQuestions agentId db).foldl
              (processQuestion (jsTrim (jsToLower userMessage)) r1)
              { bestMatch := none, bestScore := 0, k := 0 }).bestScore
          then bm else noInfoResponse
       | none => noInfoResponse) := rfl
  have hrun2 : findMatchingAnswer agentId (Except.ok db) userMessage r2 =
      (match ((loadFinalQuestions agentId db).foldl
          (processQuestion (jsTrim (jsToLower userMessage)) r2)
          { bestMatch := none, bestScore := 0, k := 0 }).bestMatch with
       | some bm =>
          if mkRat 3 10 < ((loadFinalQuestions agentId db).foldl
              (processQuestion (jsTrim (jsToLower userMessage)) r2)
              { bestMatch := none, bestScore := 0, k := 0 }).bestScore
          then bm else noInfoResponse
       | none => noInfoResponse) := rfl
  rw [matchLoop_eq_foldl] at hrun1 hrun2
  obtain ⟨hs, hbm⟩ := foldl_ids (jsTrim (jsToLower userMessage)) r1 r2
    ((loadFinalQuestions agentId db).flatMap candidatesOf)
    { bestMatch := none, bestScore := 0, k := 0 }
    { bestMatch := none, bestScore := 0, k := 0 } rfl (Or.inl ⟨rfl, rfl⟩)
  rcases hbm with ⟨hn1, hn2⟩ | ⟨p1, p2, hp1, hp2, hqid, haid⟩
  · rw [hn1] at hrun1
    rw [hn2] at hrun2
    rw [hrun1, hrun2]
    exact ⟨rfl, rfl⟩
  · rw [hp1] at hrun1
    rw [hp2] at hrun2
    have h1 : findMatchingAnswer agentId (Except.ok db) userMessage r1 =
        (if mkRat 3 10 < ((((loadFinalQuestions agentId db).flatMap candidatesOf)).foldl
            (stepCandidate (jsTrim (jsToLower userMessage)) r1)
            { bestMatch := none, bestScore := 0, k := 0 }).bestScore
         then p1 else noInfoResponse) := hrun1
    have h2 : findMatchingAnswer agentId (Except.ok db) userMessage r2 =
        (if mkRat 3 10 < ((((loadFinalQuestions agentId db).flatMap candidatesOf)).foldl
            (stepCandidate (jsTrim (jsToLower userMessage)) r2)
            { bestMatch := none, bestScore := 0, k := 0 }).bestScore
         then p2 else noInfoResponse) := hrun2
    rw [hs] at h1
    by_cases hC : mkRat 3 10 < ((((loadFinalQuestions agentId db).flatMap candidatesOf)).foldl
        (stepCandidate (jsTrim (jsToLower userMessage)) r2)
        { bestMatch := none, bestScore := 0, k := 0 }).bestScore
    · rw [if_pos hC] at h1 h2
      rw [h1, h2]
      exact ⟨hqid, haid⟩
    · rw [if_neg hC] at h1 h2
      rw [h1, h2]
      exact ⟨rfl, rfl⟩

/-- Claim C1 (the failing run): on the non-empty source text `"zzz qqq"`,
kind `answer`, with every random draw 0, every rule returns its input
unchanged, yet `generateVariants` returns an entry whose text equals the
verbatim source text — the source's discard guard
`variant && variant !== originalText` compares the rule's result object
against a string, which is always true, so nothing is ever discarded. -/
theorem generateVariants_emits_verbatim :
    "zzz qqq" ≠ "" ∧
    ∃ v ∈ generateVariants "zzz qqq" "answer" none (fun _ => 0),
      v.text = "zzz qqq" := by
  decide

/-- Counterexample for claim C2: on the source text `"yyy www"`, kind
`answer`, with every random draw 0, all ten first-pass rules leave the
text unchanged and all ten entries are pushed, so the returned list holds
the same text ten times — it is not deduplicated by text. -/
theorem generateVariants_not_dedup :
    ¬ ((generateVariants "yyy www" "answer" none (fun _ => 0)).map
        VariantEntry.text).Nodup := by
  decide

/-- Amended claim C2: the list returned by `generateVariants` is in
generation order and capped at 12 entries, but it is not deduplicated by
text. -/
theorem generateVariants_length_le_twelve (originalText ty : String)
    (htmlContent : Option String) (rand : ℕ → ℚ) :
    (generateVariants originalText ty htmlContent rand).length ≤ 12 := by
  unfold generateVariants generateVariantsWith generateVariantsTry
  cases h1 : applyTechniquesE applyParaphraseTechniqueE originalText ty htmlContent
      rand techniques 0 0 with
  | error e => simp
  | ok p =>
    obtain ⟨variants, k⟩ := p
    cases h2 : generateCreativeVariantsE applyParaphraseTechniqueE originalText ty
        htmlContent rand combinations 0 k with
    | error e => simp [h2]
    | ok q =>
      obtain ⟨creativeVariants, k2⟩ := q
      simp [h2, List.length_take]

/-- Claim C8: whenever the `try` body of `generateVariants` raises (any
rule throws at any point), the `catch` returns the empty list — never the
variants accumulated so far, and never a propagated exception. -/
theorem generateVariants_catches (apply : ApplyFn) (originalText ty : String)
    (htmlContent : Option String) (rand : ℕ → ℚ) (e : String)
    (h : generateVariantsTry apply originalText ty htmlContent rand = Except.error e) :
    generateVariantsWith apply originalText ty htmlContent rand = [] := by
  unfold generateVariantsWith
  rw [h]

/-- Witness for claim C8: with a rule application that throws, the body
raises on the first technique and `generateVariants` returns `[]`. -/
theorem generateVariants_catches_witness :
    generateVariantsWith throwingApply "How do I reset my password?" "question"
      none (fun _ => 0) = [] :=
  generateVariants_catches throwingApply "How do I reset my password?" "question"
    none (fun _ => 0) "rule failure" rfl

/-- Claim C10: an update through `PUT /admin/questions/:id` that supplies
no explicit status resets both the Question's and the Answer's status to
`Draft`, and the updated pair is invisible to the matcher: inserting the
updated row into the stored rows leaves every `findMatchingAnswer` result
unchanged. -/
theorem updateQuestion_resets_status (q : QuestionRow) (a : AnswerRow)
    (req : UpdateQuestionRequest) (rand1 rand2 : ℕ → ℚ)
    (h : req.status = none) :
    (updateQuestion q a req rand1 rand2).1.status = "Draft" ∧
    (updateQuestion q a req rand1 rand2).2.status = "Draft" ∧
    ∀ (agentId : ℕ) (db1 db2 : List QuestionRow) (userMessage : String)
      (mrand : ℕ → ℚ),
      findMatchingAnswer agentId (Except.ok (db1 ++
          { (updateQuestion q a req rand1 rand2).1 with
            answer := some (updateQuestion q a req rand1 rand2).2 } :: db2))
          userMessage mrand =
        findMatchingAnswer agentId (Except.ok (db1 ++ db2)) userMessage mrand := by
  have hd : jsOrDraft req.status = "Draft" := by rw [h]; rfl
  refine ⟨hd, hd, ?_⟩
  intro agentId db1 db2 userMessage mrand
  show findMatchingAnswerCore agentId _ userMessage mrand =
    findMatchingAnswerCore agentId _ userMessage mrand
  unfold findMatchingAnswerCore
  rw [loadFinalQuestions_drops_draft agentId db1 db2 _ (Or.inl hd)]

/-- Witness for claim C10 at concrete rows: an update request without a
status field leaves both rows in status Draft. -/
theorem updateQuestion_resets_status_witness :
    (updateQuestion exQuestion exAnswer exUpdateReq (fun _ => 0) (fun _ => 0)).1.status = "Draft" ∧
    (updateQuestion exQuestion exAnswer exUpdateReq (fun _ => 0) (fun _ => 0)).2.status = "Draft" :=
  ⟨(updateQuestion_resets_status exQuestion exAnswer exUpdateReq (fun _ => 0) (fun _ => 0) rfl).1,
   (updateQuestion_resets_status exQuestion exAnswer exUpdateReq (fun _ => 0) (fun _ => 0) rfl).2.1⟩
